import Mathlib

/-!
Verification of the pyplotter repository's two source modules:

* `src/pyplotter/sources/workers/loadDataBase.py` — the batch-emitting
  database-scan worker (`loadDataBaseThread.run`), modelled as a pure
  function from the accessor's result to the list of Qt signals it emits.
* `src/plotter/sources/plot_app.py` — the plot mouse-interaction and
  crosshair handler (`PlotApp`), modelled as a state machine driven by
  enter/leave/move/checkbox events.

Machine floats of the Python code are embedded as rationals; Qt signal
emissions are recorded in an ordered event list.
-/

namespace Pyplotter

/-! ## Worker model: `loadDataBase.py`

`getRunInfos` returns `Mapping[int, RunRecord] | None`; a Python dict
iterates in insertion order, so the mapping is embedded as an association
list in that order.  A run record carries the seven fields the worker
reads. -/

structure RunInfo where
  nb_independent_parameter : List Nat
  experiment_name : String
  sample_name : String
  run_name : String
  started : String
  completed : String
  records : Nat
deriving DecidableEq, Repr

/-- The eight parallel lists accumulated in `loadDataBaseThread.run`
(lines 89–96 of `loadDataBase.py`). -/
structure Buffers where
  runId : List Nat
  dim : List String
  experimentName : List String
  sampleName : List String
  runName : List String
  started : List String
  completed : List String
  runRecords : List String
deriving DecidableEq, Repr

def emptyBuffers : Buffers := ⟨[], [], [], [], [], [], [], []⟩

/-- `'-'.join(str(i) for i in val['nb_independent_parameter'])+'d'`. -/
def dimOf (v : RunInfo) : String :=
  String.intercalate "-" (v.nb_independent_parameter.map toString) ++ "d"

/-- The eight `append` calls of loop body lines 99–106. -/
def pushBuffers (b : Buffers) (k : Nat) (v : RunInfo) : Buffers :=
  { runId := b.runId ++ [k]
    dim := b.dim ++ [dimOf v]
    experimentName := b.experimentName ++ [v.experiment_name]
    sampleName := b.sampleName ++ [v.sample_name]
    runName := b.runName ++ [v.run_name]
    started := b.started ++ [v.started]
    completed := b.completed ++ [v.completed]
    runRecords := b.runRecords ++ [toString v.records] }

/-- The signals of `loadDataBaseSignal`.  `addRows` carries the eight
parallel lists (as a `Buffers` value), the total run count and the
progress-bar key. -/
inductive Sig where
  | setStatusBarMessage (msg : String) (isError : Bool)
  | updateProgressBar (progressBarKey : String) (percent : Nat)
  | addRows (buf : Buffers) (nbTotalRun : Nat) (progressBarKey : String)
  | updateDatabase (progressBarKey : String) (failed : Bool) (nbTotalRun : Nat)
deriving DecidableEq, Repr

/-- The `for key, val in runInfos.items()` loop of `run` (lines 97–128).
Returns the signals emitted during the loop, the final buffer, and — as
instrumentation for the "at every point" buffer invariants — the trace of
the buffer length right after each append. -/
def runLoop (B : Nat) (key : String) (total : Nat) :
    List (Nat × RunInfo) → Buffers → List Sig × Buffers × List Nat
  | [], buf => ([], buf, [])
  | (k, v) :: rest, buf =>
      if k % B = 0 then
        (Sig.addRows (pushBuffers buf k v) total key ::
            (runLoop B key total rest emptyBuffers).1,
         (runLoop B key total rest emptyBuffers).2.1,
         (pushBuffers buf k v).runId.length ::
            (runLoop B key total rest emptyBuffers).2.2)
      else
        ((runLoop B key total rest (pushBuffers buf k v)).1,
         (runLoop B key total rest (pushBuffers buf k v)).2.1,
         (pushBuffers buf k v).runId.length ::
            (runLoop B key total rest (pushBuffers buf k v)).2.2)

/-- `loadDataBaseThread.run` (lines 62–144), as the list of signals one
execution emits.  `runInfos` is the accessor's result, `B` the config
value `NbRunEmit`, `progressBarKey` the key given at construction.
The `QtTest.qWait(1000)` pause emits nothing and is not represented. -/
def run (runInfos : Option (List (Nat × RunInfo))) (B : Nat)
    (progressBarKey : String) : List Sig :=
  Sig.setStatusBarMessage "Gathered runs infos database" false ::
  match runInfos with
  | none =>
      [Sig.setStatusBarMessage "Database empty" true,
       Sig.updateDatabase progressBarKey false 0]
  | some m =>
      Sig.setStatusBarMessage "Loading database" false ::
      ((runLoop B progressBarKey m.length m emptyBuffers).1 ++
        (if (runLoop B progressBarKey m.length m emptyBuffers).2.1.runId.length ≠ 0 then
          [Sig.addRows (runLoop B progressBarKey m.length m emptyBuffers).2.1
            m.length progressBarKey]
         else []) ++
        [Sig.updateDatabase progressBarKey false m.length])

/-- The buffer-length trace of one execution: the length of the
accumulated `runId` list right after each append of the loop. -/
def runBufferTrace (runInfos : Option (List (Nat × RunInfo))) (B : Nat)
    (progressBarKey : String) : List Nat :=
  match runInfos with
  | none => []
  | some m => (runLoop B progressBarKey m.length m emptyBuffers).2.2

/-- The eight parallel lists of an `addRows` signal, `none` otherwise. -/
def sigBuf : Sig → Option Buffers
  | Sig.addRows b _ _ => some b
  | _ => none

/-- The batches (eight-list groups) carried by the `addRows` signals of a
signal list, in emission order. -/
def addRowsOf (sigs : List Sig) : List Buffers := sigs.filterMap sigBuf

def isUpdateDatabase : Sig → Bool
  | Sig.updateDatabase _ _ _ => true
  | _ => false

def isErrorStatus : Sig → Bool
  | Sig.setStatusBarMessage _ isError => isError
  | _ => false

def failedOf : Sig → Bool
  | Sig.updateDatabase _ failed _ => failed
  | _ => false

/-! ## Plot interaction model: `plot_app.py`

`PlotApp` is embedded as a state record plus an environment record (the
host plot's axis ranges, plot type, stored 2d arrays and the read-only
configuration).  Python floats become rationals.  The coordinate label is
abstracted to the data it displays (its float formatting is not
representable); the override cursor is a three-valued shape. -/

inductive CursorShape where
  | arrow
  | pointingHand
  | blankCursor
deriving DecidableEq, Repr

/-- What `labelCoordinate.setText` displays: nothing, x and y for a 1d
plot (with or without timestamp decoding of x), or x, y and the looked-up
z for a 2d plot. -/
inductive Label where
  | blankText
  | oneDTime (x y : ℚ)
  | oneD (x y : ℚ)
  | twoD (x y z : ℚ)
deriving DecidableEq, Repr

/-- The configuration parameters `plot_app.py` reads. -/
structure Config where
  plotShrinkActiveArea : ℚ
  crossHairLineStyle : String
  crossHairLineColor : String
  crossHairLineWidth : ℚ
deriving DecidableEq, Repr

/-- The host-plot data `PlotApp` reads but never writes: axis ranges,
plot type tag, whether the x axis is a timestamp axis, and the stored
axis/value arrays used by the 2d coordinate label. -/
structure PlotEnv where
  xRange : ℚ × ℚ
  yRange : ℚ × ℚ
  plotType : String
  timestampXAxis : Bool
  x : List ℚ
  y : List ℚ
  z : List (List ℚ)
  config : Config
deriving DecidableEq, Repr

/-- The mutable state of `PlotApp`: mouse position in data coordinates,
the hover flag maintained by `eventFilter`, the crosshair-enabled flag,
the two optional crosshair lines (their positions), the coordinate label
and the override cursor. -/
structure PlotApp where
  mousePos : ℚ × ℚ
  widgetHovered : Bool
  displayCrossHair : Bool
  vLine : Option ℚ
  hLine : Option ℚ
  labelCoordinate : Label
  cursor : CursorShape
deriving DecidableEq, Repr

/-- The state after `PlotApp.__init__`: no crosshair lines, not hovered,
crosshair disabled. -/
def initPlotApp : PlotApp :=
  { mousePos := (0, 0), widgetHovered := false, displayCrossHair := false
    vLine := none, hLine := none, labelCoordinate := Label.blankText
    cursor := CursorShape.arrow }

/-- `PlotApp.isMouseOverView` (lines 69–84): strict comparisons against
the axis ranges shrunk by `plotShrinkActiveArea` percent per side, and the
hover flag. -/
def isMouseOverView (env : PlotEnv) (st : PlotApp) : Bool :=
  let x := env.xRange
  let y := env.yRange
  let dx := (x.2 - x.1) / 100 * env.config.plotShrinkActiveArea
  let dy := (y.2 - y.1) / 100 * env.config.plotShrinkActiveArea
  decide (st.mousePos.1 > x.1 + dx) && decide (st.mousePos.1 < x.2 - dx) &&
  decide (st.mousePos.2 > y.1 + dy) && decide (st.mousePos.2 < y.2 - dy) &&
  st.widgetHovered

/-- Index of the first minimum of a nonempty distance list
(`np.argmin` on the list of distances); `0` on the empty list. -/
def argminAux (v : ℚ) (best : ℚ) (bestIdx : Nat) (i : Nat) :
    List ℚ → Nat
  | [] => bestIdx
  | d :: rest =>
      if d < best then argminAux v d i (i + 1) rest
      else argminAux v best bestIdx (i + 1) rest

/-- `np.abs(xs - v).argmin()`: index of the entry of `xs` nearest to `v`
(first one on ties). -/
def argminAbs (xs : List ℚ) (v : ℚ) : Nat :=
  match xs.map (fun t => |t - v|) with
  | [] => 0
  | d :: rest => argminAux v d 0 1 rest

/-- `PlotApp.setMouseCoordinate` (lines 129–175).  `Except.error` models
the `raise ValueError('plotType unknown')` branch. -/
def setMouseCoordinate (env : PlotEnv) (st : PlotApp)
    (blank : Bool := false) : Except String PlotApp :=
  if blank then
    Except.ok { st with labelCoordinate := Label.blankText }
  else if env.plotType = "1d" then
    if env.timestampXAxis then
      Except.ok { st with labelCoordinate := Label.oneDTime st.mousePos.1 st.mousePos.2 }
    else
      Except.ok { st with labelCoordinate := Label.oneD st.mousePos.1 st.mousePos.2 }
  else if env.plotType = "2d" then
    let n := argminAbs env.x st.mousePos.1
    let m := argminAbs env.y st.mousePos.2
    let z := (env.z.getD n []).getD m 0
    Except.ok { st with labelCoordinate := Label.twoD st.mousePos.1 st.mousePos.2 z }
  else
    Except.error "plotType unknown"

/-- `PlotApp.infiniteLineHovering` (lines 179–195).  `linesHovering` is
the list of the `mouseHovering` flags of `self.infiniteLines.values()`. -/
def infiniteLineHovering (linesHovering : List Bool) (st : PlotApp)
    (defaultCursor : CursorShape := CursorShape.arrow) : PlotApp :=
  { st with cursor :=
      if linesHovering.any (fun h => h) then CursorShape.pointingHand
      else defaultCursor }

/-- `config['crossHairLineStyle']` resolution (lines 223–232); `none`
models the `raise ValueError` branch. -/
def resolveLineStyle (s : String) : Option String :=
  if s = "solid" then some "SolidLine"
  else if s = "dashed" then some "DashLine"
  else if s = "dotted" then some "DotLine"
  else if s = "dashed-dotted" then some "DashDotLine"
  else none

/-- `PlotApp.crossHair` (lines 199–263). -/
def crossHair (env : PlotEnv) (linesHovering : List Bool) (st : PlotApp)
    (remove : Bool := false)
    (defaultCursor : CursorShape := CursorShape.arrow) :
    Except String PlotApp :=
  let remove :=
    if env.plotType = "2d" && linesHovering.any (fun h => h) then true
    else remove
  if remove = false ∧ st.vLine = none then
    match resolveLineStyle env.config.crossHairLineStyle with
    | none => Except.error "Config parameter crossHairLineStyle not recognize"
    | some _ =>
        Except.ok { st with
          vLine := some st.mousePos.1
          hLine := some st.mousePos.2
          cursor := CursorShape.blankCursor }
  else if remove = true ∧ st.vLine ≠ none then
    Except.ok { st with
      vLine := none, hLine := none, cursor := defaultCursor }
  else if st.vLine ≠ none then
    Except.ok { st with
      vLine := some st.mousePos.1, hLine := some st.mousePos.2 }
  else
    Except.ok st

/-- `PlotApp.mouseMoved` (lines 88–126).  `linesHovering` carries the
toolkit's per-line hover flags at event time. -/
def mouseMoved (env : PlotEnv) (pos : ℚ × ℚ) (linesHovering : List Bool)
    (st : PlotApp) : Except String PlotApp :=
  let st := { st with mousePos := pos }
  if isMouseOverView env st then
    match setMouseCoordinate env st false with
    | Except.error e => Except.error e
    | Except.ok st =>
        let st := infiniteLineHovering linesHovering st
        if st.displayCrossHair then crossHair env linesHovering st false
        else Except.ok st
  else
    match setMouseCoordinate env st true with
    | Except.error e => Except.error e
    | Except.ok st =>
        if st.displayCrossHair then crossHair env linesHovering st true
        else Except.ok st

/-- `PlotApp.checkBoxCrossHairState` (lines 55–65): copies the checkbox's
checked state into `displayCrossHair`. -/
def checkBoxCrossHairState (checked : Bool) (st : PlotApp) : PlotApp :=
  if checked then { st with displayCrossHair := true }
  else { st with displayCrossHair := false }

/-- The events the handler reacts to: `eventFilter` Enter/Leave, a
`sigMouseMoved` pointer move (with the per-line hover flags at that
moment), and a crosshair-checkbox state change. -/
inductive Event where
  | enter
  | leave
  | move (pos : ℚ × ℚ) (linesHovering : List Bool)
  | toggle (checked : Bool)
deriving DecidableEq, Repr

/-- One event dispatch. -/
def stepEvent (env : PlotEnv) (ev : Event) (st : PlotApp) :
    Except String PlotApp :=
  match ev with
  | Event.enter => Except.ok { st with widgetHovered := true }
  | Event.leave => Except.ok { st with widgetHovered := false }
  | Event.move pos hov => mouseMoved env pos hov st
  | Event.toggle b => Except.ok (checkBoxCrossHairState b st)

/-- A sequence of event dispatches. -/
def processEvents (env : PlotEnv) (st : PlotApp) :
    List Event → Except String PlotApp
  | [] => Except.ok st
  | ev :: rest =>
      match stepEvent env ev st with
      | Except.error e => Except.error e
      | Except.ok st => processEvents env st rest

/-- The crosshair-existence invariant exactly as the specification states
it: the lines exist iff (pointer over the active region AND crosshair
enabled AND no overlay line hovered). -/
def specCrossHairInvariant (env : PlotEnv) (linesHovering : List Bool)
    (st : PlotApp) : Prop :=
  st.vLine ≠ none ↔
    (isMouseOverView env st = true ∧ st.displayCrossHair = true ∧
      linesHovering.any (fun h => h) = false)

/-- Discriminator for pointer-move events. -/
def isMoveEvent : Event → Bool
  | Event.move _ _ => true
  | _ => false

/-! ## Concrete inputs used by the counterexamples and witnesses -/

def exRun : RunInfo := ⟨[1], "exp", "smp", "runname", "2021-01-01", "2021-01-02", 5⟩

/-- Mapping with consecutive keys 1, 2, 3. -/
def exMap123 : List (Nat × RunInfo) := [(1, exRun), (2, exRun), (3, exRun)]

/-- Mapping of size 2 whose keys are both multiples of 2. -/
def exMapEven : List (Nat × RunInfo) := [(2, exRun), (4, exRun)]

/-- Mapping whose keys 1, 3, 2 reach the multiple-of-2 key only after
three appends. -/
def exMapPerm : List (Nat × RunInfo) := [(1, exRun), (3, exRun), (2, exRun)]

def exConfig : Config :=
  { plotShrinkActiveArea := 1, crossHairLineStyle := "solid"
    crossHairLineColor := "blue", crossHairLineWidth := 2 }

def exEnv : PlotEnv :=
  { xRange := (0, 10), yRange := (0, 10), plotType := "1d"
    timestampXAxis := false, x := [], y := [], z := [], config := exConfig }

def exEnvBad : PlotEnv := { exEnv with plotType := "scatter" }

/-- Enable the crosshair, create it with a move, disable the crosshair,
move again: the lines are never removed. -/
def exEventsDangling : List Event :=
  [Event.enter, Event.toggle true, Event.move (5, 5) [],
   Event.toggle false, Event.move (5, 5) []]

/-- The state `exEventsDangling` ends in: crosshair lines still present
although the crosshair-enabled flag is cleared. -/
def exDanglingState : PlotApp :=
  { mousePos := (5, 5), widgetHovered := true, displayCrossHair := false
    vLine := some 5, hLine := some 5, labelCoordinate := Label.oneD 5 5
    cursor := CursorShape.arrow }

/-- Hovered, crosshair-enabled state with no lines yet. -/
def exPreMoveState : PlotApp :=
  { initPlotApp with widgetHovered := true, displayCrossHair := true }

/-- The state one in-view pointer move produces from `exPreMoveState`:
crosshair lines created at the pointer. -/
def exAfterMoveState : PlotApp :=
  { mousePos := (5, 5), widgetHovered := true, displayCrossHair := true
    vLine := some 5, hLine := some 5, labelCoordinate := Label.oneD 5 5
    cursor := CursorShape.blankCursor }

/-! ## Worker lemmas -/

lemma pushBuffers_runId_length (b : Buffers) (k : Nat) (v : RunInfo) :
    (pushBuffers b k v).runId.length = b.runId.length + 1 := by
  simp [pushBuffers]

/-- Every signal emitted inside the loop is an `addRows` carrying the
loop's total and key. -/
lemma runLoop_sigs (B : Nat) (key : String) (t : Nat) :
    ∀ (m : List (Nat × RunInfo)) (buf : Buffers) (s : Sig),
      s ∈ (runLoop B key t m buf).1 → ∃ b, s = Sig.addRows b t key := by
  intro m
  induction m with
  | nil => intro buf s h; simp [runLoop] at h
  | cons p rest ih =>
      intro buf s h
      obtain ⟨k, v⟩ := p
      by_cases hk : k % B = 0
      · rw [runLoop, if_pos hk] at h
        rcases List.mem_cons.mp h with h | h
        · exact ⟨pushBuffers buf k v, h⟩
        · exact ih emptyBuffers s h
      · rw [runLoop, if_neg hk] at h
        exact ih (pushBuffers buf k v) s h

/-- Splitting the loop across a list append. -/
lemma runLoop_append (B : Nat) (key : String) (t : Nat) :
    ∀ (l1 l2 : List (Nat × RunInfo)) (buf : Buffers),
      runLoop B key t (l1 ++ l2) buf =
        ((runLoop B key t l1 buf).1 ++
            (runLoop B key t l2 (runLoop B key t l1 buf).2.1).1,
         (runLoop B key t l2 (runLoop B key t l1 buf).2.1).2.1,
         (runLoop B key t l1 buf).2.2 ++
            (runLoop B key t l2 (runLoop B key t l1 buf).2.1).2.2) := by
  intro l1
  induction l1 with
  | nil => intro l2 buf; simp [runLoop]
  | cons p rest ih =>
      intro l2 buf
      obtain ⟨k, v⟩ := p
      by_cases hk : k % B = 0
      · simp [runLoop, hk, ih, List.append_assoc]
      · simp [runLoop, hk, ih, List.append_assoc]

lemma addRowsOf_nil : addRowsOf [] = [] := rfl

lemma addRowsOf_cons_addRows (b : Buffers) (t : Nat) (k : String) (l : List Sig) :
    addRowsOf (Sig.addRows b t k :: l) = b :: addRowsOf l := by
  simp [addRowsOf, sigBuf]

lemma addRowsOf_cons_status (msg : String) (e : Bool) (l : List Sig) :
    addRowsOf (Sig.setStatusBarMessage msg e :: l) = addRowsOf l := by
  simp [addRowsOf, sigBuf]

lemma addRowsOf_cons_update (k : String) (fl : Bool) (t : Nat) (l : List Sig) :
    addRowsOf (Sig.updateDatabase k fl t :: l) = addRowsOf l := by
  simp [addRowsOf, sigBuf]

lemma addRowsOf_append (l1 l2 : List Sig) :
    addRowsOf (l1 ++ l2) = addRowsOf l1 ++ addRowsOf l2 :=
  List.filterMap_append l1 l2 sigBuf

/-- Generic per-field content lemma for the loop: for any of the eight
parallel lists (`proj`) and its per-entry derivation (`f`), the batches
emitted so far joined with the pending buffer hold the processed entries'
derived values in order. -/
lemma runLoop_field {α : Type} (B : Nat) (key : String) (t : Nat)
    (f : Nat × RunInfo → α) (proj : Buffers → List α)
    (hpush : ∀ b k v, proj (pushBuffers b k v) = proj b ++ [f (k, v)])
    (hempty : proj emptyBuffers = []) :
    ∀ (m : List (Nat × RunInfo)) (buf : Buffers),
      ((addRowsOf (runLoop B key t m buf).1).map proj).flatten ++
          proj (runLoop B key t m buf).2.1
        = proj buf ++ m.map f := by
  intro m
  induction m with
  | nil => intro buf; simp [runLoop, addRowsOf]
  | cons p rest ih =>
      intro buf
      obtain ⟨k, v⟩ := p
      by_cases hk : k % B = 0
      · rw [runLoop, if_pos hk]
        rw [addRowsOf_cons_addRows, List.map_cons, List.flatten_cons,
           List.append_assoc, ih emptyBuffers, hempty, List.nil_append,
           hpush, List.map_cons, List.append_assoc, List.singleton_append]
      · rw [runLoop, if_neg hk]
        rw [ih (pushBuffers buf k v), hpush, List.map_cons, List.append_assoc,
           List.singleton_append]

/-- Two of the eight parallel lists stay the same length throughout the
loop. -/
lemma runLoop_proj_len {α β : Type} (B : Nat) (key : String) (t : Nat)
    (p1 : Buffers → List α) (p2 : Buffers → List β)
    (h1 : ∀ b k v, (p1 (pushBuffers b k v)).length = (p1 b).length + 1)
    (h2 : ∀ b k v, (p2 (pushBuffers b k v)).length = (p2 b).length + 1)
    (he1 : (p1 emptyBuffers).length = 0) (he2 : (p2 emptyBuffers).length = 0) :
    ∀ (m : List (Nat × RunInfo)) (buf : Buffers),
      (p1 buf).length = (p2 buf).length →
      (p1 (runLoop B key t m buf).2.1).length
        = (p2 (runLoop B key t m buf).2.1).length := by
  intro m
  induction m with
  | nil => intro buf hb; simpa [runLoop] using hb
  | cons p rest ih =>
      intro buf hb
      obtain ⟨k, v⟩ := p
      by_cases hk : k % B = 0
      · rw [runLoop, if_pos hk]
        exact ih emptyBuffers (by rw [he1, he2])
      · rw [runLoop, if_neg hk]
        exact ih (pushBuffers buf k v) (by rw [h1, h2, hb])

/-- Per-field content of one whole execution: the concatenation of a
field across all emitted batches equals that field derived from the
mapping's entries in iteration order. -/
lemma run_field_join {α : Type} (m : List (Nat × RunInfo)) (B : Nat)
    (key : String) (f : Nat × RunInfo → α) (proj : Buffers → List α)
    (hpush : ∀ b k v, proj (pushBuffers b k v) = proj b ++ [f (k, v)])
    (hempty : proj emptyBuffers = []) :
    ((addRowsOf (run (some m) B key)).map proj).flatten = m.map f := by
  have hfield := runLoop_field B key m.length f proj hpush hempty m emptyBuffers
  rw [hempty, List.nil_append] at hfield
  by_cases hfin : (runLoop B key m.length m emptyBuffers).2.1.runId.length = 0
  · have hp : (proj (runLoop B key m.length m emptyBuffers).2.1).length = 0 := by
      have hpar := runLoop_proj_len B key m.length proj Buffers.runId
        (fun b k v => by rw [hpush]; simp)
        (fun b k v => pushBuffers_runId_length b k v)
        (by rw [hempty]; rfl) rfl m emptyBuffers (by rw [hempty]; rfl)
      exact hpar.trans hfin
    rw [List.eq_nil_of_length_eq_zero hp, List.append_nil] at hfield
    simp only [run, hfin, ne_eq, not_true_eq_false, if_false,
      addRowsOf_cons_status, addRowsOf_append, addRowsOf_nil,
      addRowsOf_cons_update, List.append_nil]
    exact hfield
  · simp only [run, hfin, ne_eq, not_false_eq_true, if_true,
      addRowsOf_cons_status, addRowsOf_append, addRowsOf_nil,
      addRowsOf_cons_addRows, addRowsOf_cons_update, List.append_nil,
      List.map_append, List.map_cons, List.map_nil, List.flatten_append,
      List.flatten_cons, List.flatten_nil]
    exact hfield

lemma runLoop_singleton (B : Nat) (key : String) (t : Nat) (k : Nat)
    (v : RunInfo) (buf : Buffers) :
    runLoop B key t [(k, v)] buf =
      if k % B = 0 then
        ([Sig.addRows (pushBuffers buf k v) t key], emptyBuffers,
          [(pushBuffers buf k v).runId.length])
      else
        ([], pushBuffers buf k v, [(pushBuffers buf k v).runId.length]) := by
  by_cases hk : k % B = 0 <;> simp [runLoop, hk]

/-- Ceiling division, written `(K + B - 1) / B`, as floor division plus a
partial step. -/
lemma ceil_div_eq (K B : Nat) (hB : 0 < B) :
    (K + B - 1) / B = K / B + (if K % B = 0 then 0 else 1) := by
  rcases Nat.eq_zero_or_pos K with hK | hK
  · subst hK
    rw [Nat.zero_add, Nat.div_eq_of_lt (Nat.sub_lt hB Nat.one_pos)]
    simp
  · have hsplit : K + B - 1 = (K - 1) + B := by omega
    rw [hsplit, Nat.add_div_right _ hB]
    have hK1 : K - 1 + 1 = K := Nat.succ_pred_eq_of_pos hK
    by_cases hdvd : B ∣ K
    · have h0 : K % B = 0 := Nat.mod_eq_zero_of_dvd hdvd
      have h2 : (K - 1 + 1) / B = (K - 1) / B + 1 :=
        Nat.succ_div_of_dvd (by rw [hK1]; exact hdvd)
      rw [hK1] at h2
      rw [if_pos h0, h2, Nat.add_zero]
    · have h0 : K % B ≠ 0 := fun hc => hdvd (Nat.dvd_of_mod_eq_zero hc)
      have h2 : (K - 1 + 1) / B = (K - 1) / B :=
        Nat.succ_div_of_not_dvd (by rw [hK1]; exact hdvd)
      rw [hK1] at h2
      rw [if_neg h0, h2]

/-- Loop behaviour on a mapping whose keys are the consecutive integers
1, …, K in iteration order: `⌊K/B⌋` batches are emitted inside the loop,
each of size exactly `B`, the pending buffer ends at size `K % B`, and
the buffer length never exceeds `B`. -/
lemma runLoop_consecutive (B : Nat) (key : String) (t : Nat) (hB : 0 < B) :
    ∀ (m : List (Nat × RunInfo)),
      m.map Prod.fst = List.range' 1 m.length →
      (addRowsOf (runLoop B key t m emptyBuffers).1).length = m.length / B ∧
      (runLoop B key t m emptyBuffers).2.1.runId.length = m.length % B ∧
      (∀ x ∈ (runLoop B key t m emptyBuffers).2.2, x ≤ B) ∧
      (∀ b ∈ addRowsOf (runLoop B key t m emptyBuffers).1,
        b.runId.length = B) := by
  intro m
  induction m using List.reverseRecOn with
  | nil => intro _; simp [runLoop, addRowsOf, emptyBuffers]
  | append_singleton rest p ih =>
      intro hkeys
      obtain ⟨k, v⟩ := p
      rw [List.length_append, List.length_cons, List.length_nil, Nat.zero_add,
         List.map_append, List.range'_concat] at hkeys
      obtain ⟨hrest, hklist⟩ :=
        List.append_inj hkeys (by simp [List.length_range'])
      have hkval : k = rest.length + 1 := by
        simp only [List.map_cons, List.map_nil, List.cons.injEq] at hklist
        omega
      subst hkval
      obtain ⟨hc, hr2, htr, hsz⟩ := ih hrest
      have hsplit :=
        runLoop_append B key t rest [(rest.length + 1, v)] emptyBuffers
      rw [runLoop_singleton] at hsplit
      rw [List.length_append, List.length_cons, List.length_nil, Nat.zero_add]
      by_cases hkmod : (rest.length + 1) % B = 0
      · rw [if_pos hkmod] at hsplit
        have hdvd : B ∣ rest.length + 1 := Nat.dvd_of_mod_eq_zero hkmod
        have hdiv : (rest.length + 1) / B = rest.length / B + 1 :=
          Nat.succ_div_of_dvd hdvd
        have hfull : rest.length % B + 1 = B := by
          have e1 := Nat.div_add_mod rest.length B
          have e2 := Nat.div_add_mod (rest.length + 1) B
          rw [hdiv, hkmod, Nat.add_zero, Nat.mul_add, Nat.mul_one] at e2
          obtain ⟨q, hq⟩ : ∃ q, B * (rest.length / B) = q := ⟨_, rfl⟩
          rw [hq] at e1 e2
          omega
        simp only [hsplit]
        refine ⟨?_, ?_, ?_, ?_⟩
        · rw [addRowsOf_append, addRowsOf_cons_addRows, addRowsOf_nil,
             List.length_append, hc, List.length_cons, List.length_nil, hdiv]
        · rw [hkmod]; rfl
        · intro x hx
          rcases List.mem_append.mp hx with hx | hx
          · exact htr x hx
          · rw [List.mem_singleton.mp hx, pushBuffers_runId_length, hr2]
            exact Nat.le_of_eq hfull
        · intro b hb
          rw [addRowsOf_append, addRowsOf_cons_addRows, addRowsOf_nil]
            at hb
          rcases List.mem_append.mp hb with hb | hb
          · exact hsz b hb
          · rw [List.mem_singleton.mp hb, pushBuffers_runId_length, hr2]
            exact hfull
      · rw [if_neg hkmod] at hsplit
        have hndvd : ¬B ∣ rest.length + 1 :=
          fun hd => hkmod (Nat.mod_eq_zero_of_dvd hd)
        have hdiv : (rest.length + 1) / B = rest.length / B :=
          Nat.succ_div_of_not_dvd hndvd
        have hstep : rest.length % B + 1 = (rest.length + 1) % B := by
          have e1 := Nat.div_add_mod rest.length B
          have e2 := Nat.div_add_mod (rest.length + 1) B
          rw [hdiv] at e2
          obtain ⟨q, hq⟩ : ∃ q, B * (rest.length / B) = q := ⟨_, rfl⟩
          rw [hq] at e1 e2
          omega
        simp only [hsplit]
        refine ⟨?_, ?_, ?_, ?_⟩
        · rw [addRowsOf_append, addRowsOf_nil, List.append_nil, hc, hdiv]
        · rw [pushBuffers_runId_length, hr2, hstep]
        · intro x hx
          rcases List.mem_append.mp hx with hx | hx
          · exact htr x hx
          · rw [List.mem_singleton.mp hx, pushBuffers_runId_length, hr2]
            exact Nat.succ_le_of_lt (Nat.mod_lt _ hB)
        · intro b hb
          rw [addRowsOf_append, addRowsOf_nil, List.append_nil] at hb
          exact hsz b hb

/-- Decomposition of one execution's batches: the loop's batches followed
by the final partial batch when the pending buffer is non-empty. -/
lemma addRowsOf_run (m : List (Nat × RunInfo)) (B : Nat) (key : String) :
    addRowsOf (run (some m) B key) =
      addRowsOf (runLoop B key m.length m emptyBuffers).1 ++
        (if (runLoop B key m.length m emptyBuffers).2.1.runId.length ≠ 0 then
          [(runLoop B key m.length m emptyBuffers).2.1] else []) := by
  by_cases hfin : (runLoop B key m.length m emptyBuffers).2.1.runId.length = 0 <;>
    simp [run, hfin, addRowsOf_append, addRowsOf_cons_status,
      addRowsOf_cons_addRows, addRowsOf_cons_update, addRowsOf_nil]

/-- Every `addRows` signal of one execution carries the mapping's size as
total and the worker's progress-bar key. -/
lemma run_total_key (m : List (Nat × RunInfo)) (B : Nat) (key : String) :
    ∀ b tt kk, Sig.addRows b tt kk ∈ run (some m) B key →
      tt = m.length ∧ kk = key := by
  intro b tt kk hmem
  simp only [run] at hmem
  rcases List.mem_cons.mp hmem with h | hmem
  · exact absurd h (by simp)
  rcases List.mem_cons.mp hmem with h | hmem
  · exact absurd h (by simp)
  rcases List.mem_append.mp hmem with hmem | h
  · rcases List.mem_append.mp hmem with h | h
    · obtain ⟨b', hb'⟩ := runLoop_sigs B key m.length m emptyBuffers _ h
      simp only [Sig.addRows.injEq] at hb'
      exact ⟨hb'.2.1, hb'.2.2⟩
    · by_cases hfin :
        (runLoop B key m.length m emptyBuffers).2.1.runId.length ≠ 0
      · rw [if_pos hfin, List.mem_singleton] at h
        simp only [Sig.addRows.injEq] at h
        exact ⟨h.2.1, h.2.2⟩
      · rw [if_neg hfin] at h
        exact absurd h (List.not_mem_nil _)
  · rw [List.mem_singleton] at h
    exact absurd h (by simp)

/-- C1 (corrected): on a mapping whose keys are the consecutive integers
1, …, K in iteration order and with batch size B > 0, one execution emits
exactly ⌈K/B⌉ `addRows` signals, the concatenation of each of the eight
emitted field sequences equals that field derived from the mapping's
entries in iteration order, and every `addRows` signal carries total
count K (and the worker's key). -/
theorem c1_batch_stream (m : List (Nat × RunInfo)) (B : Nat) (key : String)
    (hB : 0 < B) (hkeys : m.map Prod.fst = List.range' 1 m.length) :
    (addRowsOf (run (some m) B key)).length = (m.length + B - 1) / B ∧
    ((addRowsOf (run (some m) B key)).map Buffers.runId).flatten
      = m.map Prod.fst ∧
    ((addRowsOf (run (some m) B key)).map Buffers.dim).flatten
      = m.map (fun p => dimOf p.2) ∧
    ((addRowsOf (run (some m) B key)).map Buffers.experimentName).flatten
      = m.map (fun p => p.2.experiment_name) ∧
    ((addRowsOf (run (some m) B key)).map Buffers.sampleName).flatten
      = m.map (fun p => p.2.sample_name) ∧
    ((addRowsOf (run (some m) B key)).map Buffers.runName).flatten
      = m.map (fun p => p.2.run_name) ∧
    ((addRowsOf (run (some m) B key)).map Buffers.started).flatten
      = m.map (fun p => p.2.started) ∧
    ((addRowsOf (run (some m) B key)).map Buffers.completed).flatten
      = m.map (fun p => p.2.completed) ∧
    ((addRowsOf (run (some m) B key)).map Buffers.runRecords).flatten
      = m.map (fun p => toString p.2.records) ∧
    (∀ b tt kk, Sig.addRows b tt kk ∈ run (some m) B key →
      tt = m.length ∧ kk = key) := by
  obtain ⟨hc, hr2, _htr, _hsz⟩ := runLoop_consecutive B key m.length hB m hkeys
  refine ⟨?_, ?_, ?_, ?_, ?_, ?_, ?_, ?_, ?_, ?_⟩
  · rw [addRowsOf_run, List.length_append, hc, hr2,
       ceil_div_eq m.length B hB]
    by_cases hm : m.length % B = 0 <;> simp [hm]
  · exact run_field_join m B key (fun p => p.1) Buffers.runId
      (fun b k v => rfl) rfl
  · exact run_field_join m B key (fun p => dimOf p.2) Buffers.dim
      (fun b k v => rfl) rfl
  · exact run_field_join m B key (fun p => p.2.experiment_name)
      Buffers.experimentName (fun b k v => rfl) rfl
  · exact run_field_join m B key (fun p => p.2.sample_name)
      Buffers.sampleName (fun b k v => rfl) rfl
  · exact run_field_join m B key (fun p => p.2.run_name)
      Buffers.runName (fun b k v => rfl) rfl
  · exact run_field_join m B key (fun p => p.2.started)
      Buffers.started (fun b k v => rfl) rfl
  · exact run_field_join m B key (fun p => p.2.completed)
      Buffers.completed (fun b k v => rfl) rfl
  · exact run_field_join m B key (fun p => toString p.2.records)
      Buffers.runRecords (fun b k v => rfl) rfl
  · exact run_total_key m B key

/-- C1 witness: the consecutive-keys mapping of size 3 with batch size 2
emits ⌈3/2⌉ = 2 batches. -/
theorem c1_batch_stream_witness :
    (addRowsOf (run (some exMap123) 2 "key")).length
      = (exMap123.length + 2 - 1) / 2 :=
  (c1_batch_stream exMap123 2 "key" (by decide) (by decide)).1

/-- C1 counterexample: the mapping with keys 2 and 4 (size K = 2) at
batch size B = 2 emits 2 `addRows` signals, not ⌈K/B⌉ = 1, because the
flush condition tests the key's value, not the buffer's fill. -/
theorem c1_counterexample :
    (addRowsOf (run (some exMapEven) 2 "key")).length = 2 ∧
    (exMapEven.length + 2 - 1) / 2 = 1 := by decide

/-- C2 (corrected): with consecutive keys 1, …, K and B > 0 the buffer
length never exceeds B at any point of the iteration, every mid-loop
flush happens at length exactly B, and the final partial batch has size
K mod B when that is non-zero. -/
theorem c2_buffer_invariant (m : List (Nat × RunInfo)) (B : Nat)
    (key : String) (hB : 0 < B)
    (hkeys : m.map Prod.fst = List.range' 1 m.length) :
    (∀ x ∈ runBufferTrace (some m) B key, x ≤ B) ∧
    ((addRowsOf (run (some m) B key)).map (fun b => b.runId.length)
      = List.replicate (m.length / B) B ++
        (if m.length % B = 0 then [] else [m.length % B])) := by
  obtain ⟨hc, hr2, htr, hsz⟩ := runLoop_consecutive B key m.length hB m hkeys
  constructor
  · intro x hx
    exact htr x hx
  · rw [addRowsOf_run, List.map_append]
    have h1 : (addRowsOf (runLoop B key m.length m emptyBuffers).1).map
        (fun b => b.runId.length) = List.replicate (m.length / B) B := by
      rw [List.eq_replicate_iff]
      constructor
      · rw [List.length_map, hc]
      · intro x hx
        obtain ⟨b, hb, rfl⟩ := List.mem_map.mp hx
        exact hsz b hb
    have h2 : ((if (runLoop B key m.length
          m emptyBuffers).2.1.runId.length ≠ 0 then
            [(runLoop B key m.length m emptyBuffers).2.1] else []).map
          (fun b => b.runId.length))
        = if m.length % B = 0 then [] else [m.length % B] := by
      by_cases hm : m.length % B = 0 <;> simp [hr2, hm]
    rw [h1, h2]

/-- C2 witness: consecutive keys 1, 2, 3 at batch size 2 give the batch
size list [2, 1] and a trace bounded by 2. -/
theorem c2_buffer_invariant_witness :
    (∀ x ∈ runBufferTrace (some exMap123) 2 "key", x ≤ 2) ∧
    ((addRowsOf (run (some exMap123) 2 "key")).map (fun b => b.runId.length)
      = List.replicate (exMap123.length / 2) 2 ++
        (if exMap123.length % 2 = 0 then [] else [exMap123.length % 2])) :=
  c2_buffer_invariant exMap123 2 "key" (by decide) (by decide)

/-- C2 counterexample: with keys 1, 3, 2 and batch size 2 the buffer
grows to length 3 > 2 before the first flush, and the flush happens at
length 3, not 2. -/
theorem c2_counterexample :
    (addRowsOf (run (some exMapPerm) 2 "key")).map (fun b => b.runId.length)
      = [3] ∧
    runBufferTrace (some exMapPerm) 2 "key" = [1, 2, 3] := by decide

/-- C4 (corrected): only the absent (None) accessor result takes the
failed/empty path — one error status message, no `addRows`, and a final
scan-complete with total 0; an *empty* (non-None) mapping takes the
normal path, emitting no error status (and likewise no `addRows` and a
zero-count scan-complete). -/
theorem c4_empty_database (B : Nat) (key : String) :
    run none B key =
      [Sig.setStatusBarMessage "Gathered runs infos database" false,
       Sig.setStatusBarMessage "Database empty" true,
       Sig.updateDatabase key false 0] ∧
    (run none B key).filter isErrorStatus
      = [Sig.setStatusBarMessage "Database empty" true] ∧
    addRowsOf (run none B key) = [] ∧
    (run none B key).getLast? = some (Sig.updateDatabase key false 0) ∧
    addRowsOf (run (some []) B key) = [] ∧
    (run (some []) B key).filter isErrorStatus = [] ∧
    (run (some []) B key).getLast? = some (Sig.updateDatabase key false 0) := by
  refine ⟨rfl, rfl, rfl, rfl, ?_, ?_, ?_⟩ <;>
    simp [run, runLoop, addRowsOf, sigBuf, isErrorStatus, emptyBuffers]

/-- C4 counterexample: an empty (but non-None) mapping emits no
failed/empty status message at all — the "Database empty" branch is only
taken for None. -/
theorem c4_counterexample :
    run (some []) 2 "key" =
      [Sig.setStatusBarMessage "Gathered runs infos database" false,
       Sig.setStatusBarMessage "Loading database" false,
       Sig.updateDatabase "key" false 0] ∧
    (run (some []) 2 "key").filter isErrorStatus = [] := by decide

/-- C6 (confirmed): the mapping with keys 1, 2, 3 at batch size 2 emits
exactly two `addRows` signals with batch sizes 2 and 1 in that order
(key groups [1, 2] and [3]), followed by a scan-complete signal with
total count 3. -/
theorem c6_example :
    (addRowsOf (run (some exMap123) 2 "pbk")).map (fun b => b.runId.length)
      = [2, 1] ∧
    (addRowsOf (run (some exMap123) 2 "pbk")).map Buffers.runId
      = [[1, 2], [3]] ∧
    (run (some exMap123) 2 "pbk").getLast?
      = some (Sig.updateDatabase "pbk" false 3) := by decide

/-- C7 (confirmed): every execution ends with exactly one scan-complete
(`updateDatabase`) signal, carrying the total record count — 0 on the
empty/absent path and the mapping's size otherwise — and it is the last
signal emitted. -/
theorem c7_scan_complete (runInfos : Option (List (Nat × RunInfo)))
    (B : Nat) (key : String) :
    (run runInfos B key).filter isUpdateDatabase
      = [Sig.updateDatabase key false ((runInfos.getD []).length)] ∧
    (run runInfos B key).getLast?
      = some (Sig.updateDatabase key false ((runInfos.getD []).length)) := by
  cases runInfos with
  | none => exact ⟨rfl, rfl⟩
  | some m =>
      have hloop :
          (runLoop B key m.length m emptyBuffers).1.filter isUpdateDatabase
            = [] :=
        List.filter_eq_nil_iff.mpr (fun s hs => by
          obtain ⟨b, rfl⟩ := runLoop_sigs B key m.length m emptyBuffers s hs
          simp [isUpdateDatabase])
      constructor
      · have hite : (if (runLoop B key m.length
              m emptyBuffers).2.1.runId.length ≠ 0 then
                [Sig.addRows (runLoop B key m.length m emptyBuffers).2.1
                  m.length key]
              else []).filter isUpdateDatabase = [] := by
          split <;> simp [isUpdateDatabase]
        simp [run, List.filter_append, hloop, hite, isUpdateDatabase]
      · simp only [run, Option.getD]
        rw [show Sig.setStatusBarMessage "Gathered runs infos database" false ::
            Sig.setStatusBarMessage "Loading database" false ::
            ((runLoop B key m.length m emptyBuffers).1 ++
              (if (runLoop B key m.length
                  m emptyBuffers).2.1.runId.length ≠ 0 then
                [Sig.addRows (runLoop B key m.length m emptyBuffers).2.1
                  m.length key]
               else []) ++
              [Sig.updateDatabase key false m.length])
          = (Sig.setStatusBarMessage "Gathered runs infos database" false ::
              Sig.setStatusBarMessage "Loading database" false ::
              ((runLoop B key m.length m emptyBuffers).1 ++
                (if (runLoop B key m.length
                    m emptyBuffers).2.1.runId.length ≠ 0 then
                  [Sig.addRows (runLoop B key m.length m emptyBuffers).2.1
                    m.length key]
                 else []))) ++
              [Sig.updateDatabase key false m.length] by simp]
        exact List.getLast?_concat _

/-- C10 (confirmed): no signal of any execution carries a raised failed
flag — in particular the scan-complete signal is always emitted with
`failed = False`, on the empty/absent path too. -/
theorem c10_failed_flag (runInfos : Option (List (Nat × RunInfo)))
    (B : Nat) (key : String) :
    (run runInfos B key).filter failedOf = [] ∧
    Sig.updateDatabase key false ((runInfos.getD []).length)
      ∈ run runInfos B key := by
  cases runInfos with
  | none => exact ⟨rfl, by simp [run]⟩
  | some m =>
      constructor
      · have hloop :
            (runLoop B key m.length m emptyBuffers).1.filter failedOf = [] :=
          List.filter_eq_nil_iff.mpr (fun s hs => by
            obtain ⟨b, rfl⟩ :=
              runLoop_sigs B key m.length m emptyBuffers s hs
            simp [failedOf])
        have hite : (if (runLoop B key m.length
                m emptyBuffers).2.1.runId.length ≠ 0 then
                  [Sig.addRows (runLoop B key m.length m emptyBuffers).2.1
                    m.length key]
                else []).filter failedOf = [] := by
          split <;> simp [failedOf]
        simp [run, List.filter_append, hloop, hite, failedOf]
      · simp [run]

/-! ## Plot interaction lemmas -/

/-- `isMouseOverView` only reads the mouse position and the hover flag. -/
lemma isMouseOverView_eq (env : PlotEnv) (st st' : PlotApp)
    (h1 : st'.mousePos = st.mousePos)
    (h2 : st'.widgetHovered = st.widgetHovered) :
    isMouseOverView env st' = isMouseOverView env st := by
  simp [isMouseOverView, h1, h2]

/-- `setMouseCoordinate` changes at most the coordinate label. -/
lemma setMouseCoordinate_ok (env : PlotEnv) (st : PlotApp) (blank : Bool)
    (st' : PlotApp) (h : setMouseCoordinate env st blank = Except.ok st') :
    st'.mousePos = st.mousePos ∧ st'.widgetHovered = st.widgetHovered ∧
    st'.displayCrossHair = st.displayCrossHair ∧
    st'.vLine = st.vLine ∧ st'.hLine = st.hLine := by
  unfold setMouseCoordinate at h
  split_ifs at h
  all_goals simp_all
  all_goals (subst h; simp)

/-- Behaviour of `crossHair` on success: positions, hover and enabled
flags are preserved; the lines are removed (or stay absent) exactly when
removal was requested or an overlay line is hovered on a 2d plot, and are
created/repositioned at the stored mouse position otherwise. -/
lemma crossHair_ok (env : PlotEnv) (hov : List Bool) (st : PlotApp)
    (r : Bool) (dc : CursorShape) (st' : PlotApp)
    (h : crossHair env hov st r dc = Except.ok st') :
    st'.mousePos = st.mousePos ∧ st'.widgetHovered = st.widgetHovered ∧
    st'.displayCrossHair = st.displayCrossHair ∧
    (((env.plotType = "2d" ∧ hov.any (fun x => x) = true) ∨ r = true) →
      (st'.vLine = none ∧
        ((st.vLine = none ↔ st.hLine = none) → st'.hLine = none))) ∧
    (¬((env.plotType = "2d" ∧ hov.any (fun x => x) = true) ∨ r = true) →
      st'.vLine = some st.mousePos.1 ∧ st'.hLine = some st.mousePos.2) := by
  by_cases hc : (env.plotType = "2d" && hov.any (fun x => x)) = true
  · have hC : env.plotType = "2d" ∧ hov.any (fun x => x) = true := by
      simpa [Bool.and_eq_true, decide_eq_true_iff] using hc
    cases hv : st.vLine with
    | none =>
        unfold crossHair at h
        rw [hc] at h
        simp only [hv] at h
        simp at h
        subst h
        refine ⟨rfl, rfl, rfl, fun _ => ⟨hv, fun hp => hp.mp rfl⟩,
          fun hn => absurd (Or.inl hC) hn⟩
    | some p =>
        unfold crossHair at h
        rw [hc] at h
        simp only [hv] at h
        simp at h
        subst h
        refine ⟨rfl, rfl, rfl, fun _ => ⟨rfl, fun _ => rfl⟩,
          fun hn => absurd (Or.inl hC) hn⟩
  · have hC : ¬(env.plotType = "2d" ∧ hov.any (fun x => x) = true) := by
      intro hcc
      exact hc (by simp [Bool.and_eq_true, decide_eq_true_iff, hcc.1, hcc.2])
    have hcf : (env.plotType = "2d" && hov.any (fun x => x)) = false := by
      cases hb : (env.plotType = "2d" && hov.any (fun x => x))
      · rfl
      · exact absurd hb hc
    cases r with
    | true =>
        cases hv : st.vLine with
        | none =>
            unfold crossHair at h
            rw [hcf] at h
            simp only [hv] at h
            simp at h
            subst h
            refine ⟨rfl, rfl, rfl, fun _ => ⟨hv, fun hp => hp.mp rfl⟩,
              fun hn => absurd (Or.inr rfl) hn⟩
        | some p =>
            unfold crossHair at h
            rw [hcf] at h
            simp only [hv] at h
            simp at h
            subst h
            refine ⟨rfl, rfl, rfl, fun _ => ⟨rfl, fun _ => rfl⟩,
              fun hn => absurd (Or.inr rfl) hn⟩
    | false =>
        cases hv : st.vLine with
        | none =>
            unfold crossHair at h
            rw [hcf] at h
            simp only [hv] at h
            cases hstyle : resolveLineStyle env.config.crossHairLineStyle with
            | none => rw [hstyle] at h; simp at h
            | some s =>
                rw [hstyle] at h
                simp at h
                subst h
                refine ⟨rfl, rfl, rfl, ?_, fun _ => ⟨rfl, rfl⟩⟩
                rintro (hcc | hcc)
                · exact absurd hcc hC
                · exact absurd hcc (by simp)
        | some p =>
            unfold crossHair at h
            rw [hcf] at h
            simp only [hv] at h
            simp at h
            subst h
            refine ⟨rfl, rfl, rfl, ?_, fun _ => ⟨rfl, rfl⟩⟩
            rintro (hcc | hcc)
            · exact absurd hcc hC
            · exact absurd hcc (by simp)

/-- C5 (confirmed): `isMouseOverView` returns true exactly when the
position is strictly inside the axis-range rectangle shrunk on each side
by `plotShrinkActiveArea` percent and the widget is hovered; in
particular it is false whenever the position is outside the shrunk
rectangle or the widget is not hovered. -/
theorem c5_isMouseOverView (env : PlotEnv) (st : PlotApp) :
    isMouseOverView env st = true ↔
      (env.xRange.1 + (env.xRange.2 - env.xRange.1) / 100
          * env.config.plotShrinkActiveArea < st.mousePos.1 ∧
       st.mousePos.1 < env.xRange.2 - (env.xRange.2 - env.xRange.1) / 100
          * env.config.plotShrinkActiveArea ∧
       env.yRange.1 + (env.yRange.2 - env.yRange.1) / 100
          * env.config.plotShrinkActiveArea < st.mousePos.2 ∧
       st.mousePos.2 < env.yRange.2 - (env.yRange.2 - env.yRange.1) / 100
          * env.config.plotShrinkActiveArea ∧
       st.widgetHovered = true) := by
  simp [isMouseOverView, Bool.and_eq_true, decide_eq_true_iff, and_assoc]

/-- C8 (confirmed): displaying non-blank mouse coordinates fails with the
invalid-state `ValueError` exactly for plot-type tags other than "1d" and
"2d"; for those two tags it succeeds. -/
theorem c8_plotType_fault (env : PlotEnv) (st : PlotApp) :
    (env.plotType ≠ "1d" ∧ env.plotType ≠ "2d" →
      setMouseCoordinate env st false = Except.error "plotType unknown") ∧
    (env.plotType = "1d" ∨ env.plotType = "2d" →
      ∃ st', setMouseCoordinate env st false = Except.ok st') := by
  constructor
  · intro ⟨h1, h2⟩
    simp [setMouseCoordinate, h1, h2]
  · intro h
    rcases h with h | h
    · cases ht : env.timestampXAxis <;> simp [setMouseCoordinate, h, ht]
    · by_cases h1 : env.plotType = "1d"
      · rw [h1] at h; exact absurd h (by decide)
      · simp [setMouseCoordinate, h, h1]

/-- C8 witness: the tag "scatter" raises the invalid-state error. -/
theorem c8_plotType_fault_witness :
    setMouseCoordinate exEnvBad initPlotApp false
      = Except.error "plotType unknown" :=
  (c8_plotType_fault exEnvBad initPlotApp).1 (by decide)

/-- C9 (confirmed): a crosshair-checkbox state change only copies the
checkbox state into `displayCrossHair`; the mouse position, hover flag,
crosshair line objects, label and cursor are all left unchanged, and no
crosshair redraw or removal happens. -/
theorem c9_toggle_only_flag (env : PlotEnv) (b : Bool) (st : PlotApp) :
    stepEvent env (Event.toggle b) st
      = Except.ok { st with displayCrossHair := b } := by
  cases b <;> rfl

/-- C3 counterexample: enable the crosshair, move over the view (lines
created), disable the crosshair, move again — the lines survive although
the crosshair-enabled flag is now cleared, so the spec's
existence-iff-invariant fails after this event sequence. -/
theorem c3_counterexample :
    (processEvents exEnv initPlotApp exEventsDangling).toOption
      = some exDanglingState ∧
    ¬ specCrossHairInvariant exEnv [] exDanglingState := by
  constructor
  · norm_num [processEvents, stepEvent, mouseMoved, checkBoxCrossHairState,
      setMouseCoordinate, infiniteLineHovering, crossHair, resolveLineStyle,
      exEventsDangling, exEnv, exConfig, initPlotApp, exDanglingState,
      isMouseOverView, Except.toOption]
  · intro h
    obtain ⟨_, hflag, _⟩ := h.mp (by simp [exDanglingState])
    simp [exDanglingState] at hflag

/-- C3 (corrected): after a pointer-move processed while the
crosshair-enabled flag is set, the crosshair lines exist iff the pointer
is over the active region and no overlay line is hovered on a 2d plot
(on non-2d plots hovering does not remove them); vLine and hLine exist
together; and all other events — enter, leave, checkbox toggle — as well
as pointer-moves with the flag unset leave the line objects unchanged,
so the spec's unconditional existence-iff-invariant does not survive
disabling the flag. -/
theorem c3_crosshair (env : PlotEnv) :
    (∀ (st st' : PlotApp) (pos : ℚ × ℚ) (hov : List Bool),
      stepEvent env (Event.move pos hov) st = Except.ok st' →
      st.displayCrossHair = true →
      (st.vLine = none ↔ st.hLine = none) →
      ((st'.vLine ≠ none ↔
          (isMouseOverView env st' = true ∧
            ¬(env.plotType = "2d" ∧ hov.any (fun x => x) = true))) ∧
        (st'.vLine = none ↔ st'.hLine = none))) ∧
    (∀ (st st' : PlotApp) (ev : Event),
      stepEvent env ev st = Except.ok st' →
      (isMoveEvent ev = false ∨ st.displayCrossHair = false) →
      st'.vLine = st.vLine ∧ st'.hLine = st.hLine) := by
  constructor
  · intro st st' pos hov hstep hflag hpar
    simp only [stepEvent, mouseMoved] at hstep
    by_cases hview : isMouseOverView env { st with mousePos := pos } = true
    · rw [if_pos hview] at hstep
      cases hset : setMouseCoordinate env { st with mousePos := pos } false with
      | error e => exact absurd (hset ▸ hstep) (by simp)
      | ok st1 =>
          simp only [hset] at hstep
          obtain ⟨hm1, hw1, hd1, hv1, hh1⟩ := setMouseCoordinate_ok _ _ _ _ hset
          have hd : (infiniteLineHovering hov st1).displayCrossHair = true := by
            show st1.displayCrossHair = true
            rw [hd1]; exact hflag
          rw [if_pos hd] at hstep
          obtain ⟨hm2, hw2, hd2, hrem, hnorem⟩ :=
            crossHair_ok env hov _ false _ st' hstep
          have hmp : st'.mousePos = pos := by
            rw [hm2]; show st1.mousePos = pos; rw [hm1]
          have hwid : st'.widgetHovered = st.widgetHovered := by
            rw [hw2]; show st1.widgetHovered = st.widgetHovered; rw [hw1]
          have hio : isMouseOverView env st' = true := by
            rw [isMouseOverView_eq env { st with mousePos := pos } st'
              (by rw [hmp]) (by rw [hwid])]
            exact hview
          by_cases hC : env.plotType = "2d" ∧ hov.any (fun x => x) = true
          · obtain ⟨hvn, hhnf⟩ := hrem (Or.inl hC)
            have hhn2 : st'.hLine = none := by
              apply hhnf
              show st1.vLine = none ↔ st1.hLine = none
              rw [hv1, hh1]; exact hpar
            refine ⟨⟨fun hne => absurd hvn hne, fun hrhs => absurd hC hrhs.2⟩, ?_⟩
            rw [hvn, hhn2]
          · obtain ⟨hvs, hhs⟩ := hnorem (by
              rintro (hcc | hcc)
              · exact hC hcc
              · simp at hcc)
            refine ⟨⟨fun _ => ⟨hio, hC⟩, fun _ => by rw [hvs]; simp⟩, ?_⟩
            rw [hvs, hhs]; simp
    · rw [if_neg hview] at hstep
      cases hset : setMouseCoordinate env { st with mousePos := pos } true with
      | error e => exact absurd (hset ▸ hstep) (by simp)
      | ok st1 =>
          simp only [hset] at hstep
          obtain ⟨hm1, hw1, hd1, hv1, hh1⟩ := setMouseCoordinate_ok _ _ _ _ hset
          have hd : st1.displayCrossHair = true := by rw [hd1]; exact hflag
          rw [if_pos hd] at hstep
          obtain ⟨hm2, hw2, hd2, hrem, _⟩ :=
            crossHair_ok env hov st1 true _ st' hstep
          obtain ⟨hvn, hhnf⟩ := hrem (Or.inr rfl)
          have hhn2 : st'.hLine = none := by
            apply hhnf
            rw [hv1, hh1]; exact hpar
          have hmp : st'.mousePos = pos := by rw [hm2, hm1]
          have hwid : st'.widgetHovered = st.widgetHovered := by rw [hw2, hw1]
          refine ⟨⟨fun hne => absurd hvn hne, ?_⟩, by rw [hvn, hhn2]⟩
          rintro ⟨hov', _⟩
          rw [isMouseOverView_eq env { st with mousePos := pos } st'
            (by rw [hmp]) (by rw [hwid])] at hov'
          exact absurd hov' hview
  · intro st st' ev hstep hside
    cases ev with
    | enter =>
        simp only [stepEvent, Except.ok.injEq] at hstep
        subst hstep; exact ⟨rfl, rfl⟩
    | leave =>
        simp only [stepEvent, Except.ok.injEq] at hstep
        subst hstep; exact ⟨rfl, rfl⟩
    | toggle b =>
        simp only [stepEvent, Except.ok.injEq] at hstep
        subst hstep
        cases b <;> exact ⟨rfl, rfl⟩
    | move pos hov =>
        rcases hside with hside | hside
        · simp [isMoveEvent] at hside
        · simp only [stepEvent, mouseMoved] at hstep
          by_cases hview : isMouseOverView env { st with mousePos := pos } = true
          · rw [if_pos hview] at hstep
            cases hset :
              setMouseCoordinate env { st with mousePos := pos } false with
            | error e => exact absurd (hset ▸ hstep) (by simp)
            | ok st1 =>
                simp only [hset] at hstep
                obtain ⟨hm1, hw1, hd1, hv1, hh1⟩ :=
                  setMouseCoordinate_ok _ _ _ _ hset
                have hd : (infiniteLineHovering hov st1).displayCrossHair
                    = false := by
                  show st1.displayCrossHair = false
                  rw [hd1]; exact hside
                rw [hd] at hstep
                simp only [Bool.false_eq_true, if_false, Except.ok.injEq]
                  at hstep
                subst hstep
                constructor
                · show st1.vLine = st.vLine
                  rw [hv1]
                · show st1.hLine = st.hLine
                  rw [hh1]
          · rw [if_neg hview] at hstep
            cases hset :
              setMouseCoordinate env { st with mousePos := pos } true with
            | error e => exact absurd (hset ▸ hstep) (by simp)
            | ok st1 =>
                simp only [hset] at hstep
                obtain ⟨hm1, hw1, hd1, hv1, hh1⟩ :=
                  setMouseCoordinate_ok _ _ _ _ hset
                have hd : st1.displayCrossHair = false := by
                  rw [hd1]; exact hside
                rw [hd] at hstep
                simp only [Bool.false_eq_true, if_false, Except.ok.injEq]
                  at hstep
                subst hstep
                exact ⟨by rw [hv1], by rw [hh1]⟩

/-- C3 witness: from the hovered, enabled, line-free state, an in-view
move with no overlay hovered yields a state whose lines exist, matching
the corrected invariant. -/
theorem c3_crosshair_witness :
    (exAfterMoveState.vLine ≠ none ↔
        (isMouseOverView exEnv exAfterMoveState = true ∧
          ¬(exEnv.plotType = "2d" ∧
            (([] : List Bool).any (fun x => x)) = true))) ∧
      (exAfterMoveState.vLine = none ↔ exAfterMoveState.hLine = none) :=
  (c3_crosshair exEnv).1 exPreMoveState exAfterMoveState (5, 5) []
    (by norm_num [stepEvent, mouseMoved, setMouseCoordinate,
      infiniteLineHovering, crossHair, resolveLineStyle, exEnv, exConfig,
      initPlotApp, exPreMoveState, exAfterMoveState, isMouseOverView])
    rfl Iff.rfl

end Pyplotter
